import Mathlib

/-!
Shallow embedding of the widget state-orchestration engine of the
`widget-dragger` repository: the widget reducer
(`src/reducers/widgetReducer.js`), the TTL cache (`useCache`), the
orchestrator (`useWidgets`: `addWidget`, `removeWidget`, `refreshWidget`,
`reorderWidgets`, `fetchWidgetData`), the type validator
(`src/lib/utils.js`), and a transition system tying them together.

JS values that may be `undefined` are rendered as `Option`; JS code that
can throw (property access on `undefined`) is rendered as `Except String`.
The data payload is kept opaque via a type parameter `α`.
-/

namespace WidgetDragger

/-- A widget object as constructed by `addWidget` in `useWidgets`:
fields `id`, `type`, `data` (null before first successful fetch),
`loading`, `error` (null when absent) and `createdAt`.
The payload type is an opaque parameter `α`. -/
structure Widget (α : Type) where
  id : String
  type : String
  data : Option α
  loading : Bool
  error : Option String
  createdAt : Nat
deriving DecidableEq, Repr

/-- The actions of `WIDGET_ACTIONS` in `src/constants/widgetTypes.js`,
with their payload shapes as dispatched by `useWidgets`; `unknown`
stands for any action type not recognized by the reducer switch. -/
inductive Action (α : Type) where
  | addWidget (payload : Widget α)
  | removeWidget (id : String)
  | reorderWidgets (fromIndex toIndex : Nat)
  | updateWidgetData (id : String) (data : α)
  | setWidgetLoading (id : String) (loading : Bool)
  | setWidgetError (id : String) (error : String)
  | unknown
deriving DecidableEq, Repr

/-- Decidable equality of reducer results, so concrete runs can be checked
by `decide`. -/
instance {ε β : Type} [DecidableEq ε] [DecidableEq β] : DecidableEq (Except ε β) := fun a b =>
  match a, b with
  | .error e1, .error e2 =>
      if h : e1 = e2 then .isTrue (by rw [h])
      else .isFalse (by intro hc; cases hc; exact h rfl)
  | .error _, .ok _ => .isFalse (by intro hc; cases hc)
  | .ok _, .error _ => .isFalse (by intro hc; cases hc)
  | .ok a1, .ok a2 =>
      if h : a1 = a2 then .isTrue (by rw [h])
      else .isFalse (by intro hc; cases hc; exact h rfl)

/-- The message of the TypeError JS raises when a reducer callback reads
`.id` off an `undefined` array element. -/
def typeErrorMsg : String := "TypeError: cannot read property id of undefined"

/-- `state.filter((widget) => widget.id !== action.payload)` over a JS
array whose elements may be `undefined` (`none`): reading `.id` of an
`undefined` element throws. -/
def jsFilterOutId {α : Type} (targetId : String) :
    List (Option (Widget α)) → Except String (List (Option (Widget α)))
  | [] => .ok []
  | none :: _ => .error typeErrorMsg
  | some w :: rest =>
      match jsFilterOutId targetId rest with
      | .error e => .error e
      | .ok tail => .ok (if w.id = targetId then tail else some w :: tail)

/-- The `UPDATE_WIDGET_DATA` map: for the matching id, set `data`, clear
`loading` and `error`; reading `.id` of an `undefined` element throws. -/
def jsMapUpdate {α : Type} (targetId : String) (d : α) :
    List (Option (Widget α)) → Except String (List (Option (Widget α)))
  | [] => .ok []
  | none :: _ => .error typeErrorMsg
  | some w :: rest =>
      match jsMapUpdate targetId d rest with
      | .error e => .error e
      | .ok tail =>
          .ok ((if w.id = targetId
                then some { w with data := some d, loading := false, error := none }
                else some w) :: tail)

/-- The `SET_WIDGET_LOADING` map: for the matching id, set the `loading`
flag only (the `error` field is left untouched). -/
def jsMapLoading {α : Type} (targetId : String) (b : Bool) :
    List (Option (Widget α)) → Except String (List (Option (Widget α)))
  | [] => .ok []
  | none :: _ => .error typeErrorMsg
  | some w :: rest =>
      match jsMapLoading targetId b rest with
      | .error e => .error e
      | .ok tail =>
          .ok ((if w.id = targetId then some { w with loading := b } else some w) :: tail)

/-- The `SET_WIDGET_ERROR` map: for the matching id, set `error` and
clear `loading`; `data` is left as-is. -/
def jsMapError {α : Type} (targetId : String) (msg : String) :
    List (Option (Widget α)) → Except String (List (Option (Widget α)))
  | [] => .ok []
  | none :: _ => .error typeErrorMsg
  | some w :: rest =>
      match jsMapError targetId msg rest with
      | .error e => .error e
      | .ok tail =>
          .ok ((if w.id = targetId
                then some { w with error := some msg, loading := false }
                else some w) :: tail)

/-- `arr.splice(i, 1)` on a JS array (non-negative `i`): the array with
the element at `i` removed (nothing removed when `i` is out of range)
together with the removed element (`undefined`, i.e. `none`, when
nothing was removed). -/
def spliceRemoveOne {β : Type} (l : List β) (i : Nat) : List β × Option β :=
  (l.take i ++ l.drop (i + 1), l.get? i)

/-- `arr.splice(i, 0, b)` on a JS array (non-negative `i`): insert `b`
at index `i`, clamped to the array length. -/
def spliceInsert {β : Type} (l : List β) (i : Nat) (b : β) : List β :=
  l.take i ++ b :: l.drop i

/-- The reducer switch of `src/reducers/widgetReducer.js`. State is a JS
array whose elements are widgets or `undefined` (`Option (Widget α)`);
branches whose callbacks read `.id` can throw on `undefined` elements.
The `REORDER_WIDGETS` branch copies the array, does
`splice(fromIndex, 1)` destructured into `removed` (possibly
`undefined`) and `splice(toIndex, 0, removed)`. -/
def widgetReducer {α : Type} (state : List (Option (Widget α))) :
    Action α → Except String (List (Option (Widget α)))
  | .addWidget w => .ok (state ++ [some w])
  | .removeWidget i => jsFilterOutId i state
  | .reorderWidgets f t =>
      let r := spliceRemoveOne state f
      .ok (spliceInsert r.1 t r.2.join)
  | .updateWidgetData i d => jsMapUpdate i d state
  | .setWidgetLoading i b => jsMapLoading i b state
  | .setWidgetError i e => jsMapError i e state
  | .unknown => .ok state

/-- A proper widget list (no `undefined` holes) viewed as a JS array. -/
def asState {α : Type} (l : List (Widget α)) : List (Option (Widget α)) :=
  l.map some

/-- Pure view of the `REMOVE_WIDGET` branch on a proper widget list. -/
def removeW {α : Type} (l : List (Widget α)) (i : String) : List (Widget α) :=
  l.filter (fun w => w.id ≠ i)

/-- Pure view of the `UPDATE_WIDGET_DATA` branch on a proper widget list. -/
def updateW {α : Type} (l : List (Widget α)) (i : String) (d : α) : List (Widget α) :=
  l.map (fun w => if w.id = i
                  then { w with data := some d, loading := false, error := none }
                  else w)

/-- Pure view of the `SET_WIDGET_LOADING` branch on a proper widget list. -/
def setLoadingW {α : Type} (l : List (Widget α)) (i : String) (b : Bool) : List (Widget α) :=
  l.map (fun w => if w.id = i then { w with loading := b } else w)

/-- Pure view of the `SET_WIDGET_ERROR` branch on a proper widget list. -/
def setErrorW {α : Type} (l : List (Widget α)) (i : String) (msg : String) : List (Widget α) :=
  l.map (fun w => if w.id = i then { w with error := some msg, loading := false } else w)

theorem jsFilterOutId_asState {α : Type} (i : String) (l : List (Widget α)) :
    jsFilterOutId i (asState l) = .ok (asState (removeW l i)) := by
  induction l with
  | nil => rfl
  | cons w rest ih =>
      simp only [asState, List.map_cons] at ih ⊢
      simp only [jsFilterOutId, ih, removeW, List.filter_cons]
      by_cases h : w.id = i <;> simp [h, removeW, asState]

theorem jsMapUpdate_asState {α : Type} (i : String) (d : α) (l : List (Widget α)) :
    jsMapUpdate i d (asState l) = .ok (asState (updateW l i d)) := by
  induction l with
  | nil => rfl
  | cons w rest ih =>
      simp only [asState, List.map_cons] at ih ⊢
      simp only [jsMapUpdate, ih, updateW, List.map_cons]
      by_cases h : w.id = i <;> simp [h, updateW, asState]

theorem jsMapLoading_asState {α : Type} (i : String) (b : Bool) (l : List (Widget α)) :
    jsMapLoading i b (asState l) = .ok (asState (setLoadingW l i b)) := by
  induction l with
  | nil => rfl
  | cons w rest ih =>
      simp only [asState, List.map_cons] at ih ⊢
      simp only [jsMapLoading, ih, setLoadingW, List.map_cons]
      by_cases h : w.id = i <;> simp [h, setLoadingW, asState]

theorem jsMapError_asState {α : Type} (i msg : String) (l : List (Widget α)) :
    jsMapError i msg (asState l) = .ok (asState (setErrorW l i msg)) := by
  induction l with
  | nil => rfl
  | cons w rest ih =>
      simp only [asState, List.map_cons] at ih ⊢
      simp only [jsMapError, ih, setErrorW, List.map_cons]
      by_cases h : w.id = i <;> simp [h, setErrorW, asState]

/-! ### Cache (`useCache` hook) -/

/-- A cache entry as stored by `setCache`: the payload together with the
`Date.now()` write timestamp. -/
structure CacheEntry (α : Type) where
  data : α
  timestamp : Nat
deriving DecidableEq, Repr

/-- `CACHE_DURATION = 5 * 60 * 1000` (5 minutes, in milliseconds). -/
def CACHE_DURATION : Nat := 5 * 60 * 1000

/-- `cache.current.get(key)` on the underlying JS `Map`, modelled as an
association list with unique keys (first match). -/
def mapGet {α : Type} (c : List (String × CacheEntry α)) (k : String) :
    Option (CacheEntry α) :=
  match c.find? (fun p => p.1 = k) with
  | some p => some p.2
  | none => none

/-- `cache.current.delete(key)`: drop the entry for `k`. -/
def mapDelete {α : Type} (c : List (String × CacheEntry α)) (k : String) :
    List (String × CacheEntry α) :=
  c.filter (fun p => p.1 ≠ k)

/-- `cache.current.set(key, entry)` on a JS `Map`: overwrite in place if
the key is present, else append. -/
def mapSet {α : Type} (c : List (String × CacheEntry α)) (k : String)
    (e : CacheEntry α) : List (String × CacheEntry α) :=
  if c.any (fun p => p.1 = k) then c.map (fun p => if p.1 = k then (k, e) else p)
  else c ++ [(k, e)]

/-- `getCached(key)` at current time `now`: a missing key returns null;
an entry whose age `now - timestamp` exceeds `CACHE_DURATION` is deleted
and null is returned; otherwise the stored data is returned. Returns the
result together with the (possibly lazily-evicted) cache. -/
def getCached {α : Type} (c : List (String × CacheEntry α)) (k : String)
    (now : Nat) : Option α × List (String × CacheEntry α) :=
  match mapGet c k with
  | none => (none, c)
  | some e => if CACHE_DURATION < now - e.timestamp
              then (none, mapDelete c k)
              else (some e.data, c)

/-- `setCache(key, data)` at current time `now`. -/
def setCache {α : Type} (c : List (String × CacheEntry α)) (k : String)
    (d : α) (now : Nat) : List (String × CacheEntry α) :=
  mapSet c k ⟨d, now⟩

/-- `getCacheSize()`: `cache.current.size`. -/
def getCacheSize {α : Type} (c : List (String × CacheEntry α)) : Nat :=
  c.length

/-! ### Widget type catalog and validator (`src/lib/utils.js`) -/

/-- JS `String.prototype.toLowerCase` on the ASCII identifiers used as
widget types: per-character lowercasing. -/
def strLower (s : String) : String := ⟨s.data.map Char.toLower⟩

/-- JS `String.prototype.toUpperCase` on the ASCII identifiers used as
widget types: per-character uppercasing. -/
def strUpper (s : String) : String := ⟨s.data.map Char.toUpper⟩

/-- `Object.keys(WIDGET_TYPES)` from `src/constants/widgetTypes.js`. -/
def widgetTypeKeys : List String := ["WEATHER", "STOCK", "NEWS"]

/-- `isValidWidgetType(type)` from `src/lib/utils.js`:
`Object.keys(WIDGET_TYPES).includes(type.toUpperCase())`. -/
def isValidWidgetType (ty : String) : Bool :=
  widgetTypeKeys.contains (strUpper ty)

/-! ### Orchestrator (`useWidgets` hook) -/

/-- An outstanding (awaited, not yet settled) `widgetService.fetchWidgetData`
call issued by `fetchWidgetData`, identified by the arguments it will
complete with. -/
structure FetchReq where
  widgetType : String
  widgetId : String
deriving DecidableEq, Repr

/-- The state owned/observed by one `useWidgets` instance: the reducer-held
widget array, the `useCache` map, the set of in-flight service calls, and
the current clock (`Date.now()`), advanced externally. -/
structure SysState (α : Type) where
  widgets : List (Option (Widget α))
  cache : List (String × CacheEntry α)
  pending : List FetchReq
  now : Nat
deriving DecidableEq, Repr

/-- The initial state: `useReducer(widgetReducer, [])`, an empty cache,
no in-flight fetches. -/
def initState (α : Type) : SysState α :=
  { widgets := [], cache := [], pending := [], now := 0 }

/-- `dispatch(action)`: run the reducer on the held widget array. -/
def dispatch {α : Type} (s : SysState α) (a : Action α) :
    Except String (SysState α) :=
  (widgetReducer s.widgets a).map (fun ws => { s with widgets := ws })

/-- The cache key of `fetchWidgetData`: the template string
interpolating widgetType and widgetId around a dash. -/
def cacheKey (t i : String) : String := t ++ "-" ++ i

/-- Remove the first occurrence of `x` from `l` (settling one of possibly
several identical in-flight requests). -/
def eraseFirst {β : Type} [DecidableEq β] : List β → β → List β
  | [], _ => []
  | y :: ys, x => if y = x then ys else y :: eraseFirst ys x

/-- The synchronous prefix of `fetchWidgetData(widgetType, widgetId)`:
look up the cache; on a hit dispatch `UPDATE_WIDGET_DATA` with the
cached payload and stop (no service call, no loading flag); on a miss
dispatch `SET_WIDGET_LOADING(true)` and start a service call (recorded
in `pending`, settled later by `completeFetchOk`/`completeFetchErr`).
Returns the new state paired with the list of dispatched actions. -/
def fetchWidgetData {α : Type} (s : SysState α) (t i : String) :
    Except String (SysState α) × List (Action α) :=
  let r := getCached s.cache (cacheKey t i) s.now
  match r.1 with
  | some d =>
      (dispatch { s with cache := r.2 } (.updateWidgetData i d),
       [.updateWidgetData i d])
  | none =>
      (dispatch { s with cache := r.2, pending := s.pending ++ [⟨t, i⟩] }
         (.setWidgetLoading i true),
       [.setWidgetLoading i true])

/-- The widget object literal built by `addWidget(type)`: fresh id,
lowercased type, null data, `loading: false`, null error, `createdAt`
stamped now. -/
def mkWidget (α : Type) (ty fid : String) (now : Nat) : Widget α :=
  { id := fid, type := strLower ty, data := none, loading := false,
    error := none, createdAt := now }

/-- `addWidget(type)`: build the widget (with externally supplied fresh
id `fid`), dispatch `ADD_WIDGET`, then immediately run `fetchWidgetData`
for it (no validation of `type` happens here). Returns the new state
paired with the dispatched actions in order. -/
def addWidget {α : Type} (s : SysState α) (ty fid : String) :
    Except String (SysState α) × List (Action α) :=
  let w : Widget α := mkWidget α ty fid s.now
  match dispatch s (.addWidget w) with
  | .error e => (.error e, [.addWidget w])
  | .ok s1 =>
      let r := fetchWidgetData s1 w.type w.id
      (r.1, .addWidget w :: r.2)

/-- `removeWidget(widgetId)`: dispatch `REMOVE_WIDGET` unconditionally. -/
def removeWidget {α : Type} (s : SysState α) (i : String) :
    Except String (SysState α) :=
  dispatch s (.removeWidget i)

/-- `reorderWidgets(fromIndex, toIndex)`: dispatch `REORDER_WIDGETS`. -/
def reorderWidgets {α : Type} (s : SysState α) (f t : Nat) :
    Except String (SysState α) :=
  dispatch s (.reorderWidgets f t)

/-- The resolution path of the `try` block of `fetchWidgetData`: the
awaited service call for `req` resolves with `d`; `setCache` stores it,
then `UPDATE_WIDGET_DATA` is dispatched. -/
def completeFetchOk {α : Type} (s : SysState α) (req : FetchReq) (d : α) :
    Except String (SysState α) :=
  dispatch
    { s with
      cache := setCache s.cache (cacheKey req.widgetType req.widgetId) d s.now,
      pending := eraseFirst s.pending req }
    (.updateWidgetData req.widgetId d)

/-- The `catch` block of `fetchWidgetData`: the awaited service call for
`req` rejects with message `msg`; `SET_WIDGET_ERROR` is dispatched with
`error.message` and nothing is written to the cache. -/
def completeFetchErr {α : Type} (s : SysState α) (req : FetchReq) (msg : String) :
    Except String (SysState α) :=
  dispatch { s with pending := eraseFirst s.pending req }
    (.setWidgetError req.widgetId msg)

/-! ### Debouncer

The repository imports `useDebounce` from `src/hooks/useDebounce.js`,
whose source file is not part of the provided sources (only its caller
`useWidgets` and its documentation are). Its trailing-edge timer
semantics is therefore modelled from the spec. -/

/-- Modelled from the spec: the missing `src/hooks/useDebounce.js`.
Per the spec, calling the wrapped operation resets a pending timer to
the delay `d`; only the last call within any window where calls occur
less than `d` apart ultimately executes, exactly once, after `d`
elapses with no further calls, carrying that last call's arguments;
earlier calls in the burst are fully discarded. Given the
time-increasing list of calls `(time, args)`, this returns the
invocations of the underlying operation as `(executionTime, args)`. -/
def debounceExecutions {β : Type} (d : Nat) : List (Nat × β) → List (Nat × β)
  | [] => []
  | [c] => [(c.1 + d, c.2)]
  | c1 :: c2 :: rest =>
      if c2.1 - c1.1 < d then debounceExecutions d (c2 :: rest)
      else (c1.1 + d, c1.2) :: debounceExecutions d (c2 :: rest)

/-! ### The reachable-state transition system

One step is one orchestrator operation (as invocable from the UI), one
settlement of an in-flight service call, or a clock advance. A
`refreshWidget` call goes through the debouncer: a burst member that is
superseded changes nothing, so only the firing calls appear as steps. -/

/-- One atomic transition of the orchestrated system. -/
inductive Step {α : Type} : SysState α → SysState α → Prop where
  | add (s : SysState α) (ty fid : String) (s2 : SysState α)
      (h : (addWidget s ty fid).1 = .ok s2) : Step s s2
  | remove (s : SysState α) (i : String) (s2 : SysState α)
      (h : removeWidget s i = .ok s2) : Step s s2
  | reorder (s : SysState α) (f t : Nat) (s2 : SysState α)
      (h : reorderWidgets s f t = .ok s2) : Step s s2
  | refreshFires (s : SysState α) (w : Widget α) (s2 : SysState α)
      (hw : some w ∈ s.widgets)
      (h : (fetchWidgetData s w.type w.id).1 = .ok s2) : Step s s2
  | fetchOk (s : SysState α) (req : FetchReq) (d : α) (s2 : SysState α)
      (hreq : req ∈ s.pending)
      (h : completeFetchOk s req d = .ok s2) : Step s s2
  | fetchErr (s : SysState α) (req : FetchReq) (msg : String) (s2 : SysState α)
      (hreq : req ∈ s.pending)
      (h : completeFetchErr s req msg = .ok s2) : Step s s2
  | tick (s : SysState α) (k : Nat) : Step s { s with now := s.now + k }

/-- States reachable from the initial empty-dashboard state. -/
def Reachable {α : Type} (s : SysState α) : Prop :=
  Relation.ReflTransGen Step (initState α) s

/-! ### Helper lemmas -/

theorem mem_spliceInsert {β : Type} {x z : β} {M : List β} {t : Nat} :
    x ∈ spliceInsert M t z ↔ x ∈ M ∨ x = z := by
  unfold spliceInsert
  constructor
  · intro hx
    rcases List.mem_append.mp hx with h | h
    · exact Or.inl (List.take_subset t M h)
    · rcases List.mem_cons.mp h with h | h
      · exact Or.inr h
      · exact Or.inl (List.drop_subset t M h)
  · intro hx
    rcases hx with h | h
    · rw [← List.take_append_drop t M] at h
      rcases List.mem_append.mp h with h | h
      · exact List.mem_append.mpr (Or.inl h)
      · exact List.mem_append.mpr (Or.inr (List.mem_cons_of_mem z h))
    · exact List.mem_append.mpr (Or.inr (h ▸ List.mem_cons_self z _))

theorem reorder_ok {α : Type} (state : List (Option (Widget α))) (f t : Nat) :
    widgetReducer state (.reorderWidgets f t) =
      .ok (spliceInsert (state.take f ++ state.drop (f + 1)) t (state.get? f).join) :=
  rfl

theorem reorder_mem_src {α : Type} {state : List (Option (Widget α))} {f t : Nat}
    {x : Option (Widget α)}
    (hx : x ∈ spliceInsert (state.take f ++ state.drop (f + 1)) t (state.get? f).join) :
    x ∈ state ∨ x = none := by
  rcases mem_spliceInsert.mp hx with h | h
  · rcases List.mem_append.mp h with h | h
    · exact Or.inl (List.take_subset f state h)
    · exact Or.inl (List.drop_subset (f + 1) state h)
  · cases hg : state.get? f with
    | none =>
        rw [hg] at h
        exact Or.inr h
    | some y =>
        rw [hg] at h
        subst h
        exact Or.inl (List.get?_mem hg)

theorem reorder_mem_preserved {α : Type} {state : List (Option (Widget α))} {f t : Nat}
    {x : Option (Widget α)} (hx : x ∈ state) :
    x ∈ spliceInsert (state.take f ++ state.drop (f + 1)) t (state.get? f).join := by
  rcases List.mem_iff_get?.mp hx with ⟨n, hn⟩
  rcases Nat.lt_trichotomy n f with hlt | heq | hgt
  · have : (state.take f).get? n = some x := by rw [List.get?_take hlt]; exact hn
    exact mem_spliceInsert.mpr
      (Or.inl (List.mem_append.mpr (Or.inl (List.get?_mem this))))
  · subst heq
    have : (state.get? n).join = x := by rw [hn]; rfl
    exact mem_spliceInsert.mpr (Or.inr this.symm)
  · have harith : f + 1 + (n - (f + 1)) = n := Nat.add_sub_cancel' hgt
    have : (state.drop (f + 1)).get? (n - (f + 1)) = some x := by
      rw [List.get?_drop, harith]; exact hn
    exact mem_spliceInsert.mpr
      (Or.inl (List.mem_append.mpr (Or.inr (List.get?_mem this))))

theorem jsFilterOutId_ok_mem {α : Type} {i : String}
    {state r : List (Option (Widget α))} (h : jsFilterOutId i state = .ok r)
    {x : Option (Widget α)} (hx : x ∈ r) : x ∈ state := by
  induction state generalizing r with
  | nil =>
      simp only [jsFilterOutId] at h
      cases h; simp at hx
  | cons o rest ih =>
      cases o with
      | none => simp [jsFilterOutId] at h
      | some w =>
          simp only [jsFilterOutId] at h
          cases htail : jsFilterOutId i rest with
          | error e => rw [htail] at h; simp at h
          | ok tail =>
              rw [htail] at h
              simp only [Except.ok.injEq] at h
              subst h
              by_cases hid : w.id = i
              · simp only [hid, if_pos rfl] at hx
                exact List.mem_cons_of_mem _ (ih htail hx)
              · simp only [if_neg hid] at hx
                rcases List.mem_cons.mp hx with h2 | h2
                · exact h2 ▸ List.mem_cons_self _ _
                · exact List.mem_cons_of_mem _ (ih htail h2)

theorem jsMapUpdate_ok_mem {α : Type} {i : String} {d : α}
    {state r : List (Option (Widget α))} (h : jsMapUpdate i d state = .ok r)
    {x : Option (Widget α)} (hx : x ∈ r) :
    ∃ w, some w ∈ state ∧
      x = (if w.id = i
           then some { w with data := some d, loading := false, error := none }
           else some w) := by
  induction state generalizing r with
  | nil =>
      simp only [jsMapUpdate] at h
      cases h; simp at hx
  | cons o rest ih =>
      cases o with
      | none => simp [jsMapUpdate] at h
      | some w =>
          simp only [jsMapUpdate] at h
          cases htail : jsMapUpdate i d rest with
          | error e => rw [htail] at h; simp at h
          | ok tail =>
              rw [htail] at h
              simp only [Except.ok.injEq] at h
              subst h
              rcases List.mem_cons.mp hx with h2 | h2
              · exact ⟨w, List.mem_cons_self _ _, h2⟩
              · rcases ih htail h2 with ⟨w0, hw0, hform⟩
                exact ⟨w0, List.mem_cons_of_mem _ hw0, hform⟩

theorem jsMapLoading_ok_mem {α : Type} {i : String} {b : Bool}
    {state r : List (Option (Widget α))} (h : jsMapLoading i b state = .ok r)
    {x : Option (Widget α)} (hx : x ∈ r) :
    ∃ w, some w ∈ state ∧
      x = (if w.id = i then some { w with loading := b } else some w) := by
  induction state generalizing r with
  | nil =>
      simp only [jsMapLoading] at h
      cases h; simp at hx
  | cons o rest ih =>
      cases o with
      | none => simp [jsMapLoading] at h
      | some w =>
          simp only [jsMapLoading] at h
          cases htail : jsMapLoading i b rest with
          | error e => rw [htail] at h; simp at h
          | ok tail =>
              rw [htail] at h
              simp only [Except.ok.injEq] at h
              subst h
              rcases List.mem_cons.mp hx with h2 | h2
              · exact ⟨w, List.mem_cons_self _ _, h2⟩
              · rcases ih htail h2 with ⟨w0, hw0, hform⟩
                exact ⟨w0, List.mem_cons_of_mem _ hw0, hform⟩

theorem jsMapError_ok_mem {α : Type} {i msg : String}
    {state r : List (Option (Widget α))} (h : jsMapError i msg state = .ok r)
    {x : Option (Widget α)} (hx : x ∈ r) :
    ∃ w, some w ∈ state ∧
      x = (if w.id = i
           then some { w with error := some msg, loading := false }
           else some w) := by
  induction state generalizing r with
  | nil =>
      simp only [jsMapError] at h
      cases h; simp at hx
  | cons o rest ih =>
      cases o with
      | none => simp [jsMapError] at h
      | some w =>
          simp only [jsMapError] at h
          cases htail : jsMapError i msg rest with
          | error e => rw [htail] at h; simp at h
          | ok tail =>
              rw [htail] at h
              simp only [Except.ok.injEq] at h
              subst h
              rcases List.mem_cons.mp hx with h2 | h2
              · exact ⟨w, List.mem_cons_self _ _, h2⟩
              · rcases ih htail h2 with ⟨w0, hw0, hform⟩
                exact ⟨w0, List.mem_cons_of_mem _ hw0, hform⟩

theorem mem_eraseFirst_of_ne {β : Type} [DecidableEq β] {l : List β} {x y : β}
    (hx : x ∈ l) (hne : x ≠ y) : x ∈ eraseFirst l y := by
  induction l with
  | nil => simp at hx
  | cons z zs ih =>
      rw [eraseFirst]
      by_cases hz : z = y
      · rw [if_pos hz]
        rcases List.mem_cons.mp hx with h | h
        · exact absurd (h.trans hz) hne
        · exact h
      · rw [if_neg hz]
        rcases List.mem_cons.mp hx with h | h
        · exact h ▸ List.mem_cons_self _ _
        · exact List.mem_cons_of_mem _ (ih h)

theorem dispatch_ok {α : Type} {s s2 : SysState α} {a : Action α}
    (h : dispatch s a = .ok s2) :
    widgetReducer s.widgets a = .ok s2.widgets ∧
    s2.cache = s.cache ∧ s2.pending = s.pending ∧ s2.now = s.now := by
  unfold dispatch at h
  cases hred : widgetReducer s.widgets a with
  | error e => rw [hred] at h; simp [Except.map] at h
  | ok ws =>
      rw [hred] at h
      simp only [Except.map] at h
      cases h
      exact ⟨rfl, rfl, rfl, rfl⟩

/-! ### The loading-implies-outstanding-fetch invariant -/

/-- A widget is marked `loading` only while a service call for its id is
in flight. -/
def LoadImpliesPending {α : Type} (s : SysState α) : Prop :=
  ∀ w : Widget α, some w ∈ s.widgets → w.loading = true →
    ∃ req ∈ s.pending, req.widgetId = w.id

theorem fetch_preserves {α : Type} {s s2 : SysState α} {t i : String}
    (hinv : LoadImpliesPending s)
    (h : (fetchWidgetData s t i).1 = .ok s2) : LoadImpliesPending s2 := by
  simp only [fetchWidgetData] at h
  cases hc : (getCached s.cache (cacheKey t i) s.now).1 with
  | some d =>
      rw [hc] at h
      simp only at h
      rcases dispatch_ok h with ⟨hred, _, hpend, _⟩
      simp only [widgetReducer] at hred
      intro w hw hload
      rcases jsMapUpdate_ok_mem hred hw with ⟨w0, hw0, hform⟩
      by_cases hid : w0.id = i
      · rw [if_pos hid, Option.some.injEq] at hform
        rw [hform] at hload
        simp at hload
      · rw [if_neg hid, Option.some.injEq] at hform
        subst hform
        rw [hpend]
        exact hinv w hw0 hload
  | none =>
      rw [hc] at h
      simp only at h
      rcases dispatch_ok h with ⟨hred, _, hpend, _⟩
      simp only [widgetReducer] at hred
      intro w hw hload
      rcases jsMapLoading_ok_mem hred hw with ⟨w0, hw0, hform⟩
      by_cases hid : w0.id = i
      · rw [if_pos hid, Option.some.injEq] at hform
        subst hform
        refine ⟨⟨t, i⟩, ?_, hid.symm⟩
        rw [hpend]
        exact List.mem_append.mpr (Or.inr (List.mem_cons_self _ _))
      · rw [if_neg hid, Option.some.injEq] at hform
        subst hform
        rcases hinv w hw0 hload with ⟨req, hreq, hreqid⟩
        refine ⟨req, ?_, hreqid⟩
        rw [hpend]
        exact List.mem_append.mpr (Or.inl hreq)

theorem addWidget_preserves {α : Type} {s s2 : SysState α} {ty fid : String}
    (hinv : LoadImpliesPending s)
    (h : (addWidget s ty fid).1 = .ok s2) : LoadImpliesPending s2 := by
  simp only [addWidget] at h
  cases hd : dispatch s (.addWidget (mkWidget α ty fid s.now)) with
  | error e => rw [hd] at h; simp at h
  | ok s1 =>
      rw [hd] at h
      simp only at h
      have hinv1 : LoadImpliesPending s1 := by
        rcases dispatch_ok hd with ⟨hred, _, hpend, _⟩
        simp only [widgetReducer, Except.ok.injEq] at hred
        intro w hw hload
        rw [← hred] at hw
        rcases List.mem_append.mp hw with hmem | hmem
        · rw [hpend]; exact hinv w hmem hload
        · rcases List.mem_cons.mp hmem with hmem | hmem
          · rw [Option.some.injEq] at hmem
            rw [hmem] at hload
            simp [mkWidget] at hload
          · simp at hmem
      exact fetch_preserves hinv1 h

theorem removeOp_preserves {α : Type} {s s2 : SysState α} {i : String}
    (hinv : LoadImpliesPending s)
    (h : removeWidget s i = .ok s2) : LoadImpliesPending s2 := by
  rcases dispatch_ok h with ⟨hred, _, hpend, _⟩
  simp only [widgetReducer] at hred
  intro w hw hload
  rw [hpend]
  exact hinv w (jsFilterOutId_ok_mem hred hw) hload

theorem reorderOp_preserves {α : Type} {s s2 : SysState α} {f t : Nat}
    (hinv : LoadImpliesPending s)
    (h : reorderWidgets s f t = .ok s2) : LoadImpliesPending s2 := by
  rcases dispatch_ok h with ⟨hred, _, hpend, _⟩
  rw [reorder_ok, Except.ok.injEq] at hred
  intro w hw hload
  rw [hpend]
  rw [← hred] at hw
  rcases reorder_mem_src hw with hmem | hmem
  · exact hinv w hmem hload
  · simp at hmem

theorem completeOk_preserves {α : Type} {s s2 : SysState α} {req : FetchReq} {d : α}
    (hinv : LoadImpliesPending s)
    (h : completeFetchOk s req d = .ok s2) : LoadImpliesPending s2 := by
  rcases dispatch_ok h with ⟨hred, _, hpend, _⟩
  simp only [widgetReducer] at hred
  intro w hw hload
  rcases jsMapUpdate_ok_mem hred hw with ⟨w0, hw0, hform⟩
  by_cases hid : w0.id = req.widgetId
  · rw [if_pos hid, Option.some.injEq] at hform
    rw [hform] at hload
    simp at hload
  · rw [if_neg hid, Option.some.injEq] at hform
    subst hform
    rcases hinv w hw0 hload with ⟨req2, hreq2, hreqid⟩
    have hne : req2 ≠ req := by
      intro hcontra
      exact hid (by rw [← hreqid, hcontra])
    refine ⟨req2, ?_, hreqid⟩
    rw [hpend]
    exact mem_eraseFirst_of_ne hreq2 hne

theorem completeErr_preserves {α : Type} {s s2 : SysState α} {req : FetchReq}
    {msg : String} (hinv : LoadImpliesPending s)
    (h : completeFetchErr s req msg = .ok s2) : LoadImpliesPending s2 := by
  rcases dispatch_ok h with ⟨hred, _, hpend, _⟩
  simp only [widgetReducer] at hred
  intro w hw hload
  rcases jsMapError_ok_mem hred hw with ⟨w0, hw0, hform⟩
  by_cases hid : w0.id = req.widgetId
  · rw [if_pos hid, Option.some.injEq] at hform
    rw [hform] at hload
    simp at hload
  · rw [if_neg hid, Option.some.injEq] at hform
    subst hform
    rcases hinv w hw0 hload with ⟨req2, hreq2, hreqid⟩
    have hne : req2 ≠ req := by
      intro hcontra
      exact hid (by rw [← hreqid, hcontra])
    refine ⟨req2, ?_, hreqid⟩
    rw [hpend]
    exact mem_eraseFirst_of_ne hreq2 hne

theorem step_preserves {α : Type} {s s2 : SysState α}
    (hinv : LoadImpliesPending s) (hstep : Step s s2) : LoadImpliesPending s2 := by
  cases hstep with
  | add _ _ _ h => exact addWidget_preserves hinv h
  | remove _ _ h => exact removeOp_preserves hinv h
  | reorder _ _ _ h => exact reorderOp_preserves hinv h
  | refreshFires _ _ _ h => exact fetch_preserves hinv h
  | fetchOk _ _ _ _ h => exact completeOk_preserves hinv h
  | fetchErr _ _ _ _ h => exact completeErr_preserves hinv h
  | tick _ => exact fun w hw hload => hinv w hw hload

theorem reachable_load_pending {α : Type} {s : SysState α}
    (h : Reachable s) : LoadImpliesPending s := by
  induction h with
  | refl => intro w hw _; simp [initState] at hw
  | tail _ hstep ih => exact step_preserves ih hstep

/-! ### Cache lemmas -/

theorem mapSet_cons_ne {α : Type} {p : String × CacheEntry α} {rest : List (String × CacheEntry α)}
    {k : String} {e : CacheEntry α} (hp : p.1 ≠ k) :
    mapSet (p :: rest) k e = p :: mapSet rest k e := by
  by_cases hrest : rest.any (fun q => q.1 = k)
  · simp [mapSet, hp, hrest]
  · simp [mapSet, hp, hrest]

theorem mapGet_mapSet_self {α : Type} (c : List (String × CacheEntry α))
    (k : String) (e : CacheEntry α) : mapGet (mapSet c k e) k = some e := by
  induction c with
  | nil => simp [mapSet, mapGet]
  | cons p rest ih =>
      by_cases hp : p.1 = k
      · have hany : (p :: rest).any (fun q => q.1 = k) = true := by
          simp [List.any_cons, hp]
        simp [mapSet, hany, mapGet, List.find?, hp]
      · rw [mapSet_cons_ne hp]
        simp only [mapGet, List.find?, hp, decide_eq_true_eq, if_neg hp]
        simp only [mapGet] at ih
        simpa [List.find?, hp] using ih

theorem keys_mapSet {α : Type} (c : List (String × CacheEntry α)) (k : String)
    (e : CacheEntry α) :
    (mapSet c k e).map Prod.fst =
      if c.any (fun p => p.1 = k) then c.map Prod.fst else c.map Prod.fst ++ [k] := by
  by_cases hany : c.any (fun p => p.1 = k)
  · rw [if_pos hany]
    simp only [mapSet, if_pos hany, List.map_map]
    apply List.map_congr_left
    intro p _
    by_cases hp : p.1 = k
    · simp [hp]
    · simp [hp]
  · rw [if_neg hany]
    simp [mapSet, hany]

theorem k_mem_keys_mapSet {α : Type} (c : List (String × CacheEntry α)) (k : String)
    (e : CacheEntry α) : k ∈ (mapSet c k e).map Prod.fst := by
  rw [keys_mapSet]
  by_cases hany : c.any (fun p => p.1 = k)
  · rw [if_pos hany]
    rcases List.any_eq_true.mp hany with ⟨p, hp, hpk⟩
    simp only [decide_eq_true_eq] at hpk
    exact hpk ▸ List.mem_map_of_mem Prod.fst hp
  · rw [if_neg hany]
    exact List.mem_append.mpr (Or.inr (List.mem_singleton.mpr rfl))

theorem nodup_keys_mapSet {α : Type} {c : List (String × CacheEntry α)} {k : String}
    {e : CacheEntry α} (hnd : (c.map Prod.fst).Nodup) :
    ((mapSet c k e).map Prod.fst).Nodup := by
  rw [keys_mapSet]
  by_cases hany : c.any (fun p => p.1 = k)
  · rw [if_pos hany]; exact hnd
  · rw [if_neg hany]
    refine List.Nodup.append hnd (List.nodup_singleton k) ?_
    intro a ha hak
    rw [List.mem_singleton] at hak
    subst hak
    rcases List.mem_map.mp ha with ⟨p, hp, hpk⟩
    have := List.any_eq_false.mp (Bool.not_eq_true _ ▸ hany) p hp
    simp only [decide_eq_true_eq] at this
    exact this hpk

theorem mapDelete_eq_self {α : Type} {c : List (String × CacheEntry α)} {k : String}
    (hk : k ∉ c.map Prod.fst) : mapDelete c k = c := by
  rw [mapDelete, List.filter_eq_self]
  intro p hp
  simp only [decide_eq_true_eq]
  intro hpk
  exact hk (hpk ▸ List.mem_map_of_mem Prod.fst hp)

theorem length_mapDelete {α : Type} {c : List (String × CacheEntry α)} {k : String}
    (hnd : (c.map Prod.fst).Nodup) (hk : k ∈ c.map Prod.fst) :
    (mapDelete c k).length + 1 = c.length := by
  induction c with
  | nil => simp at hk
  | cons p rest ih =>
      simp only [List.map_cons, List.nodup_cons] at hnd
      by_cases hp : p.1 = k
      · have hnotin : k ∉ rest.map Prod.fst := hp ▸ hnd.1
        have hrest : mapDelete rest k = rest := mapDelete_eq_self hnotin
        have hhead : mapDelete (p :: rest) k = mapDelete rest k := by
          simp [mapDelete, List.filter_cons, hp]
        rw [hhead, hrest, List.length_cons]
      · have hkrest : k ∈ rest.map Prod.fst := by
          rcases List.mem_cons.mp hk with h | h
          · exact absurd h.symm hp
          · exact h
        have hhead : mapDelete (p :: rest) k = p :: mapDelete rest k := by
          simp [mapDelete, List.filter_cons, hp]
        rw [hhead, List.length_cons, List.length_cons, ← ih hnd.2 hkrest]

/-! ### More helper lemmas and concrete fixtures -/

theorem spliceInsert_length {β : Type} (M : List β) (t : Nat) (z : β) :
    (spliceInsert M t z).length = M.length + 1 := by
  simp only [spliceInsert, List.length_append, List.length_cons,
    List.length_take, List.length_drop]
  omega

theorem asState_spliceInsert {α : Type} (A : List (Widget α)) (t : Nat) (x : Widget α) :
    asState (spliceInsert A t x) = spliceInsert (asState A) t (some x) := by
  simp [asState, spliceInsert, List.map_take, List.map_drop]

theorem updateW_of_absent {α : Type} {l : List (Widget α)} {i : String} {d : α}
    (h : ∀ w ∈ l, w.id ≠ i) : updateW l i d = l := by
  induction l with
  | nil => rfl
  | cons w rest ih =>
      rw [updateW, List.map_cons, if_neg (h w (List.mem_cons_self w rest))]
      rw [updateW] at ih
      rw [ih fun x hx => h x (List.mem_cons_of_mem w hx)]

theorem setErrorW_of_absent {α : Type} {l : List (Widget α)} {i msg : String}
    (h : ∀ w ∈ l, w.id ≠ i) : setErrorW l i msg = l := by
  induction l with
  | nil => rfl
  | cons w rest ih =>
      rw [setErrorW, List.map_cons, if_neg (h w (List.mem_cons_self w rest))]
      rw [setErrorW] at ih
      rw [ih fun x hx => h x (List.mem_cons_of_mem w hx)]

theorem removeW_absent {α : Type} (l : List (Widget α)) (i : String) :
    ∀ w ∈ removeW l i, w.id ≠ i := by
  intro w hw
  have := (List.mem_filter.mp hw).2
  simpa using this

theorem getCached_hit {α : Type} {c : List (String × CacheEntry α)} {k : String}
    {n : Nat} {d : α} (h : (getCached c k n).1 = some d) :
    getCached c k n = (some d, c) := by
  cases hm : mapGet c k with
  | none => simp [getCached, hm] at h
  | some e =>
      by_cases hexp : CACHE_DURATION < n - e.timestamp
      · simp [getCached, hm, hexp] at h
      · simp only [getCached, hm, if_neg hexp] at h ⊢
        simp only [Option.some.injEq] at h
        rw [h]

/-- A concrete weather widget fixture. -/
def wit0 : Widget Nat :=
  { id := "w0", type := "weather", data := none, loading := false,
    error := none, createdAt := 0 }

/-- A concrete stock widget fixture. -/
def wit1 : Widget Nat :=
  { id := "w1", type := "stock", data := none, loading := false,
    error := none, createdAt := 0 }

/-- A concrete news widget fixture. -/
def wit2 : Widget Nat :=
  { id := "w2", type := "news", data := none, loading := false,
    error := none, createdAt := 0 }

/-- Another concrete weather widget fixture. -/
def wit3 : Widget Nat :=
  { id := "w3", type := "weather", data := none, loading := false,
    error := none, createdAt := 0 }

/-! ### Claim theorems -/

/-- C3: after `setCache(key, value)` at time `T`, a `getCached(key)` read
within the 5-minute freshness window returns exactly the stored value and
leaves the cache unchanged; a read after the window has been exceeded
returns absent, deletes the entry, and a subsequent `size()` reflects the
eviction, so an entry older than the freshness window is never returned
as a hit. -/
theorem cache_ttl {α : Type} (c : List (String × CacheEntry α)) (k : String)
    (v : α) (T now1 now2 : Nat) (hnd : (c.map Prod.fst).Nodup)
    (h1 : now1 - T ≤ CACHE_DURATION) (h2 : CACHE_DURATION < now2 - T) :
    getCached (setCache c k v T) k now1 = (some v, setCache c k v T) ∧
    (getCached (setCache c k v T) k now2).1 = none ∧
    getCacheSize (getCached (setCache c k v T) k now2).2 + 1 =
      getCacheSize (setCache c k v T) := by
  have hget : mapGet (setCache c k v T) k = some ⟨v, T⟩ :=
    mapGet_mapSet_self c k ⟨v, T⟩
  refine ⟨?_, ?_, ?_⟩
  · simp only [getCached, hget]
    rw [if_neg (by simpa using Nat.not_lt.mpr h1)]
  · simp only [getCached, hget]
    rw [if_pos (by simpa using h2)]
  · simp only [getCached, hget]
    rw [if_pos (by simpa using h2)]
    exact length_mapDelete (nodup_keys_mapSet hnd) (k_mem_keys_mapSet c k ⟨v, T⟩)

/-- C3 witness: set at T=0; a read at T+4:59 hits with the stored value, a
read at T+5:01 misses and evicts, shrinking the size by one. -/
theorem cache_ttl_witness :
    getCached (setCache ([] : List (String × CacheEntry Nat)) "weather-w1" 7 0)
        "weather-w1" 299000
      = (some 7, setCache ([] : List (String × CacheEntry Nat)) "weather-w1" 7 0) ∧
    (getCached (setCache ([] : List (String × CacheEntry Nat)) "weather-w1" 7 0)
        "weather-w1" 301000).1 = none ∧
    getCacheSize (getCached (setCache ([] : List (String × CacheEntry Nat))
        "weather-w1" 7 0) "weather-w1" 301000).2 + 1 =
      getCacheSize (setCache ([] : List (String × CacheEntry Nat)) "weather-w1" 7 0) :=
  cache_ttl [] "weather-w1" 7 0 299000 301000 (by simp) (by decide) (by decide)

/-- C6: for every in-range pair `(fromIndex, toIndex)`, the
`REORDER_WIDGETS` transition removes the element at `fromIndex` and
inserts it at `toIndex` in the resulting shorter sequence. -/
theorem reorder_in_range {α : Type} (l : List (Widget α)) (f t : Nat)
    (hf : f < l.length) (ht : t ≤ l.length - 1) :
    widgetReducer (asState l) (.reorderWidgets f t) =
      .ok (asState (spliceInsert (l.take f ++ l.drop (f + 1)) t l[f])) := by
  rw [reorder_ok]
  congr 1
  have hjoin : ((asState l).get? f).join = some (l[f]) := by
    have h1 : l[f]? = some l[f] := List.getElem?_eq_getElem hf
    simp [asState, List.get?_map, h1, Option.join]
  rw [hjoin, asState_spliceInsert]
  congr 1
  simp [asState, List.map_take, List.map_drop]

/-- C6 witness: `[w0,w1,w2,w3]` reordered with `fromIndex=1, toIndex=3`
yields `[w0,w2,w3,w1]`. -/
theorem reorder_in_range_witness :
    widgetReducer (asState [wit0, wit1, wit2, wit3]) (.reorderWidgets 1 3) =
      .ok (asState [wit0, wit2, wit3, wit1]) := by
  rw [reorder_in_range [wit0, wit1, wit2, wit3] 1 3 (by decide) (by decide)]
  decide

/-- C10: reorder with `fromIndex ≥ length` (and `toIndex` in range) is
not a no-op: the first splice removes nothing, so `undefined` (`none`) is
inserted at `toIndex`; the result is one element longer and contains an
element that is not a widget. -/
theorem reorder_from_out_of_range {α : Type} (l : List (Widget α)) (f t : Nat)
    (hf : l.length ≤ f) (ht : t ≤ l.length) :
    widgetReducer (asState l) (.reorderWidgets f t) =
      .ok (spliceInsert (asState l) t none) ∧
    (spliceInsert (asState l) t none).length = l.length + 1 ∧
    none ∈ spliceInsert (asState l) t none ∧
    spliceInsert (asState l) t none ≠ asState l := by
  have hlen : (asState l).length = l.length := by simp [asState]
  have hfl : (asState l).length ≤ f := by rw [hlen]; exact hf
  refine ⟨?_, ?_, ?_, ?_⟩
  · rw [reorder_ok]
    congr 1
    have htake : (asState l).take f = asState l := List.take_all_of_le hfl
    have hdrop : (asState l).drop (f + 1) = [] :=
      List.drop_eq_nil_of_le (Nat.le_trans hfl (Nat.le_succ f))
    have hget : (asState l).get? f = none := List.get?_eq_none.mpr hfl
    rw [htake, hdrop, hget, List.append_nil]
    rfl
  · rw [spliceInsert_length, hlen]
  · exact mem_spliceInsert.mpr (Or.inr rfl)
  · intro hcontra
    have := congrArg List.length hcontra
    rw [spliceInsert_length, hlen] at this
    omega

/-- C10 witness: reordering the one-element list with `fromIndex=5,
toIndex=1` produces the two-element list `[some w0, undefined]`. -/
theorem reorder_from_out_of_range_witness :
    widgetReducer (asState [wit0]) (.reorderWidgets 5 1) =
      .ok (spliceInsert (asState [wit0]) 1 none) ∧
    (spliceInsert (asState [wit0]) 1 none).length = [wit0].length + 1 ∧
    none ∈ spliceInsert (asState [wit0]) 1 none ∧
    spliceInsert (asState [wit0]) 1 none ≠ asState [wit0] :=
  reorder_from_out_of_range [wit0] 5 1 (by decide) (by decide)

/-- C8: a completion dispatch (`UPDATE_WIDGET_DATA` or `SET_WIDGET_ERROR`)
whose id is absent from the list is a no-op, and in particular after
`REMOVE_WIDGET` of that id both completion dispatches leave the list
value-equal to the removed list: no resurrected widget, no error. -/
theorem stale_completion_noop {α : Type} (l : List (Widget α)) (i : String)
    (d : α) (e : String) (habs : ∀ w ∈ l, w.id ≠ i) :
    widgetReducer (asState l) (.updateWidgetData i d) = .ok (asState l) ∧
    widgetReducer (asState l) (.setWidgetError i e) = .ok (asState l) ∧
    widgetReducer (asState (removeW l i)) (.updateWidgetData i d) =
      .ok (asState (removeW l i)) ∧
    widgetReducer (asState (removeW l i)) (.setWidgetError i e) =
      .ok (asState (removeW l i)) := by
  have hupd : ∀ (l2 : List (Widget α)), (∀ w ∈ l2, w.id ≠ i) →
      widgetReducer (asState l2) (.updateWidgetData i d) = .ok (asState l2) := by
    intro l2 h2
    simp only [widgetReducer]
    rw [jsMapUpdate_asState, updateW_of_absent h2]
  have herr : ∀ (l2 : List (Widget α)), (∀ w ∈ l2, w.id ≠ i) →
      widgetReducer (asState l2) (.setWidgetError i e) = .ok (asState l2) := by
    intro l2 h2
    simp only [widgetReducer]
    rw [jsMapError_asState, setErrorW_of_absent h2]
  exact ⟨hupd l habs, herr l habs, hupd _ (removeW_absent l i),
    herr _ (removeW_absent l i)⟩

/-- C8 witness: completions for the absent id "ghost" leave `[w0]` (and
`[w0]` with "ghost" removed) unchanged. -/
theorem stale_completion_noop_witness :
    widgetReducer (asState [wit0]) (.updateWidgetData "ghost" 5) =
      .ok (asState [wit0]) ∧
    widgetReducer (asState [wit0]) (.setWidgetError "ghost" "boom") =
      .ok (asState [wit0]) ∧
    widgetReducer (asState (removeW [wit0] "ghost")) (.updateWidgetData "ghost" 5) =
      .ok (asState (removeW [wit0] "ghost")) ∧
    widgetReducer (asState (removeW [wit0] "ghost")) (.setWidgetError "ghost" "boom") =
      .ok (asState (removeW [wit0] "ghost")) :=
  stale_completion_noop [wit0] "ghost" 5 "boom" (by decide)

/-- C4: when every consecutive pair of calls to a debounced operation is
less than the delay `d` apart, exactly one underlying execution happens,
`d` after the last call, carrying the last call's arguments; all earlier
calls are discarded. -/
theorem debounce_collapse {β : Type} (d : Nat) (cs : List (Nat × β)) (c : Nat × β)
    (hgap : List.Chain' (fun p q => q.1 - p.1 < d) (cs ++ [c])) :
    debounceExecutions d (cs ++ [c]) = [(c.1 + d, c.2)] := by
  induction cs with
  | nil => rfl
  | cons c1 cs2 ih =>
      cases cs2 with
      | nil =>
          simp only [List.cons_append, List.nil_append] at hgap ⊢
          rw [List.chain'_cons] at hgap
          simp only [debounceExecutions, if_pos hgap.1]
      | cons c2 cs3 =>
          simp only [List.cons_append] at hgap ⊢
          rw [List.chain'_cons] at hgap
          simp only [debounceExecutions, if_pos hgap.1]
          have := ih hgap.2
          simpa using this

/-- C4 witness: 5 calls 100ms apart at delay 300ms collapse to exactly one
execution at t=700 carrying the 5th call's argument. -/
theorem debounce_collapse_witness :
    debounceExecutions 300 [(0, 1), (100, 2), (200, 3), (300, 4), (400, 5)] =
      [(700, 5)] := by
  have h := debounce_collapse 300 [(0, 1), (100, 2), (200, 3), (300, 4)]
    ((400, 5) : Nat × Nat) (by simp [List.chain'_cons])
  simpa using h

/-- C5: on an unexpired cache hit for `(type, id)`, `fetchWidgetData`
dispatches exactly one `UPDATE_WIDGET_DATA` with the cached payload,
never dispatches `SET_WIDGET_LOADING`, starts no service call, and the
matching widget ends Ready: data set, loading=false, error absent. -/
theorem cache_hit_refresh {α : Type} (s : SysState α) (t i : String) (d : α)
    (l : List (Widget α)) (hl : s.widgets = asState l)
    (hhit : (getCached s.cache (cacheKey t i) s.now).1 = some d) :
    (fetchWidgetData s t i).2 = [.updateWidgetData i d] ∧
    (∀ b, Action.setWidgetLoading i b ∉ (fetchWidgetData s t i).2) ∧
    ∃ s2, (fetchWidgetData s t i).1 = .ok s2 ∧
      s2.pending = s.pending ∧ s2.cache = s.cache ∧
      s2.widgets = asState (updateW l i d) ∧
      ∀ w ∈ updateW l i d, w.id = i →
        w.data = some d ∧ w.loading = false ∧ w.error = none := by
  have hpair : getCached s.cache (cacheKey t i) s.now = (some d, s.cache) :=
    getCached_hit hhit
  have hred : widgetReducer s.widgets (.updateWidgetData i d) =
      .ok (asState (updateW l i d)) := by
    rw [hl]
    simp only [widgetReducer]
    exact jsMapUpdate_asState i d l
  refine ⟨?_, ?_, ?_⟩
  · simp [fetchWidgetData, hpair]
  · intro b
    simp [fetchWidgetData, hpair]
  · refine ⟨{ s with widgets := asState (updateW l i d) }, ?_, rfl, rfl, rfl, ?_⟩
    · simp [fetchWidgetData, hpair, dispatch, hred, Except.map]
    · intro w hw hwid
      rcases List.mem_map.mp hw with ⟨w0, hw0, heq⟩
      by_cases hid : w0.id = i
      · rw [if_pos hid] at heq
        rw [← heq]
        exact ⟨rfl, rfl, rfl⟩
      · rw [if_neg hid] at heq
        rw [← heq] at hwid
        exact absurd hwid hid

/-- The concrete pre-state for the C5 witness: one ready weather widget
and a fresh cache entry for its key. -/
def hitState : SysState Nat :=
  { widgets := asState [wit0],
    cache := [("weather-w0", ⟨42, 0⟩)],
    pending := [], now := 1000 }

/-- C5 witness: a cache-hit refresh of `(weather, w0)` dispatches only
`UPDATE_WIDGET_DATA 42` and the widget lands Ready. -/
theorem cache_hit_refresh_witness :
    (fetchWidgetData hitState "weather" "w0").2 = [.updateWidgetData "w0" 42] ∧
    (∀ b, Action.setWidgetLoading "w0" b ∉ (fetchWidgetData hitState "weather" "w0").2) ∧
    ∃ s2, (fetchWidgetData hitState "weather" "w0").1 = .ok s2 ∧
      s2.pending = hitState.pending ∧ s2.cache = hitState.cache ∧
      s2.widgets = asState (updateW [wit0] "w0" 42) ∧
      ∀ w ∈ updateW [wit0] "w0" 42, w.id = "w0" →
        w.data = some 42 ∧ w.loading = false ∧ w.error = none :=
  cache_hit_refresh hitState "weather" "w0" 42 [wit0] rfl (by decide)

/-- C7: a rejected service call is absorbed by the `catch` block: on a
proper widget list, `completeFetchErr` returns normally (never an
unhandled failure), writes nothing into the cache, and the matching
widget ends with `error` set to the failure's message, `loading=false`,
and its prior `data` retained. -/
theorem fetch_failure_handled {α : Type} (s : SysState α) (req : FetchReq)
    (msg : String) (l : List (Widget α)) (hl : s.widgets = asState l) :
    ∃ s2, completeFetchErr s req msg = .ok s2 ∧
      s2.cache = s.cache ∧
      s2.widgets = asState (setErrorW l req.widgetId msg) ∧
      ∀ w ∈ l, w.id = req.widgetId →
        some { w with error := some msg, loading := false } ∈ s2.widgets := by
  have hred : widgetReducer s.widgets (.setWidgetError req.widgetId msg) =
      .ok (asState (setErrorW l req.widgetId msg)) := by
    rw [hl]
    simp only [widgetReducer]
    exact jsMapError_asState req.widgetId msg l
  refine ⟨{ s with pending := eraseFirst s.pending req, widgets := asState (setErrorW l req.widgetId msg) }, ?_, rfl, rfl, ?_⟩
  · simp [completeFetchErr, dispatch, hred, Except.map]
  · intro w hw hwid
    refine List.mem_map_of_mem some ?_
    rw [setErrorW]
    exact List.mem_map.mpr ⟨w, hw, by rw [if_pos hwid]⟩

/-- A loading weather widget that already holds data, for the C7 witness. -/
def witLoaded : Widget Nat :=
  { id := "w0", type := "weather", data := some 42, loading := true,
    error := none, createdAt := 0 }

/-- The concrete pre-state for the C7 witness: the fetch for `w0` is in
flight and the cache holds an unrelated entry. -/
def errState : SysState Nat :=
  { widgets := asState [witLoaded],
    cache := [("news-w9", ⟨7, 0⟩)],
    pending := [⟨"weather", "w0"⟩], now := 5 }

/-- C7 witness: a failing fetch for `w0` sets its error message, clears
loading, keeps `data = some 42`, and leaves the cache untouched. -/
theorem fetch_failure_handled_witness :
    ∃ s2, completeFetchErr errState ⟨"weather", "w0"⟩ "Network error occurred" = .ok s2 ∧
      s2.cache = errState.cache ∧
      s2.widgets = asState (setErrorW [witLoaded] (FetchReq.mk "weather" "w0").widgetId
        "Network error occurred") ∧
      ∀ w ∈ [witLoaded], w.id = (FetchReq.mk "weather" "w0").widgetId →
        some { w with error := some "Network error occurred", loading := false } ∈ s2.widgets :=
  fetch_failure_handled errState ⟨"weather", "w0"⟩ "Network error occurred" [witLoaded] rfl

/-- Whether a widget is untargeted by an action: actions that address a
widget id leave widgets with a different id untouched; add, reorder and
unknown actions target no existing widget's fields. -/
def untouchedBy {α : Type} (a : Action α) (w : Widget α) : Bool :=
  match a with
  | .removeWidget i => w.id ≠ i
  | .updateWidgetData i _ => w.id ≠ i
  | .setWidgetLoading i _ => w.id ≠ i
  | .setWidgetError i _ => w.id ≠ i
  | _ => true

/-- C9: the reducer (a pure function in this embedding, so it cannot
mutate its input list or any widget in it) preserves every widget not
targeted by the action unchanged — the identical widget value appears in
the newly constructed result. -/
theorem reducer_frame {α : Type} (l : List (Widget α)) (a : Action α)
    (r : List (Option (Widget α))) (h : widgetReducer (asState l) a = .ok r)
    (w : Widget α) (hw : w ∈ l) (hun : untouchedBy a w = true) :
    some w ∈ r := by
  cases a with
  | addWidget w2 =>
      simp only [widgetReducer, Except.ok.injEq] at h
      subst h
      exact List.mem_append.mpr (Or.inl (List.mem_map_of_mem some hw))
  | removeWidget i =>
      simp only [widgetReducer] at h
      rw [jsFilterOutId_asState, Except.ok.injEq] at h
      subst h
      refine List.mem_map_of_mem some ?_
      rw [removeW, List.mem_filter]
      exact ⟨hw, by simpa [untouchedBy] using hun⟩
  | reorderWidgets f t =>
      rw [reorder_ok, Except.ok.injEq] at h
      subst h
      exact reorder_mem_preserved (List.mem_map_of_mem some hw)
  | updateWidgetData i d =>
      simp only [widgetReducer] at h
      rw [jsMapUpdate_asState, Except.ok.injEq] at h
      subst h
      have hne : w.id ≠ i := by simpa [untouchedBy] using hun
      refine List.mem_map_of_mem some ?_
      rw [updateW]
      exact List.mem_map.mpr ⟨w, hw, by rw [if_neg hne]⟩
  | setWidgetLoading i b =>
      simp only [widgetReducer] at h
      rw [jsMapLoading_asState, Except.ok.injEq] at h
      subst h
      have hne : w.id ≠ i := by simpa [untouchedBy] using hun
      refine List.mem_map_of_mem some ?_
      rw [setLoadingW]
      exact List.mem_map.mpr ⟨w, hw, by rw [if_neg hne]⟩
  | setWidgetError i e =>
      simp only [widgetReducer] at h
      rw [jsMapError_asState, Except.ok.injEq] at h
      subst h
      have hne : w.id ≠ i := by simpa [untouchedBy] using hun
      refine List.mem_map_of_mem some ?_
      rw [setErrorW]
      exact List.mem_map.mpr ⟨w, hw, by rw [if_neg hne]⟩
  | unknown =>
      simp only [widgetReducer, Except.ok.injEq] at h
      subst h
      exact List.mem_map_of_mem some hw

/-- C9 witness: dispatching `SET_WIDGET_ERROR` for `w1` keeps the
untargeted widget `w0` in the result unchanged. -/
theorem reducer_frame_witness :
    some wit0 ∈ ([some wit0,
      some { wit1 with error := some "boom", loading := false }] :
        List (Option (Widget Nat))) :=
  reducer_frame [wit0, wit1] (.setWidgetError "w1" "boom") _ (by decide)
    wit0 (by decide) (by decide)

/-- C1 (code bug): `addWidget` never consults `isValidWidgetType` (which
would reject "bogus"): called with the unknown type "bogus" it appends a
widget to the list, dispatches `ADD_WIDGET` and `SET_WIDGET_LOADING`, and
starts a service call — instead of failing fast with no state mutation. -/
theorem addWidget_accepts_invalid_type :
    isValidWidgetType "bogus" = false ∧
    (addWidget (initState Nat) "bogus" "w9").1 =
      .ok { widgets := [some { id := "w9", type := "bogus", data := none,
                               loading := true, error := none, createdAt := 0 }],
            cache := [],
            pending := [{ widgetType := "bogus", widgetId := "w9" }],
            now := 0 } ∧
    (addWidget (initState Nat) "bogus" "w9").2 =
      [.addWidget { id := "w9", type := "bogus", data := none, loading := false,
                    error := none, createdAt := 0 },
       .setWidgetLoading "w9" true] := by
  decide

/-! ### C2: the loading/error exclusion invariant -/

/-- The failure message of the mock backend. -/
def netErrMsg : String := "Network error occurred"

/-- A widget that is simultaneously loading and carrying an error. -/
def violWidget : Widget Nat :=
  { id := "w1", type := "weather", data := none, loading := true,
    error := some netErrMsg, createdAt := 0 }

/-- State after `addWidget("weather")` (fresh id `w1`): the widget is
loading, its service call is in flight. -/
def stepState1 : SysState Nat :=
  { widgets := [some { id := "w1", type := "weather", data := none,
                       loading := true, error := none, createdAt := 0 }],
    cache := [], pending := [⟨"weather", "w1"⟩], now := 0 }

/-- The widget after its first fetch rejected: error recorded, not loading. -/
def failedWidget : Widget Nat :=
  { id := "w1", type := "weather", data := none, loading := false,
    error := some netErrMsg, createdAt := 0 }

/-- State after that fetch rejects: error recorded, loading cleared. -/
def stepState2 : SysState Nat :=
  { widgets := [some failedWidget], cache := [], pending := [], now := 0 }

/-- State after a refresh of the failed widget fires and misses the cache:
`SET_WIDGET_LOADING(true)` was dispatched without clearing the error. -/
def stepState3 : SysState Nat :=
  { widgets := [some violWidget], cache := [],
    pending := [⟨"weather", "w1"⟩], now := 0 }

theorem reachable_stepState3 : Reachable stepState3 := by
  have h1 : Step (initState Nat) stepState1 :=
    Step.add _ "weather" "w1" _ (by decide)
  have h2 : Step stepState1 stepState2 :=
    Step.fetchErr _ ⟨"weather", "w1"⟩ netErrMsg _ (by decide) (by decide)
  have h3 : Step stepState2 stepState3 :=
    Step.refreshFires _ failedWidget _ (by decide) (by decide)
  exact Relation.ReflTransGen.head h1
    (Relation.ReflTransGen.head h2
      (Relation.ReflTransGen.head h3 Relation.ReflTransGen.refl))

/-- C2 counterexample: the claim as stated is false — a state in which a
widget has `loading=true` and a present `error` simultaneously is
reachable by add / fetch-failure / refresh (the cache-missing refresh of
a failed widget dispatches `SET_WIDGET_LOADING(true)`, which does not
clear the prior error). -/
theorem loading_error_coexist_cex :
    Reachable stepState3 ∧ some violWidget ∈ stepState3.widgets ∧
    violWidget.loading = true ∧ violWidget.error ≠ none :=
  ⟨reachable_stepState3, by decide, by decide, by decide⟩

/-- C2 (amended): in every reachable widget list, a widget with
`loading=true` and a present `error` can only exist while a fetch for its
id is outstanding — the overlap arises exactly from a cache-missing
refresh of a previously failed widget and lasts until that fetch
completes. -/
theorem loading_error_overlap_only_while_fetching {α : Type} (s : SysState α)
    (h : Reachable s) (w : Widget α) (hw : some w ∈ s.widgets)
    (hload : w.loading = true) (herr : w.error ≠ none) :
    ∃ req ∈ s.pending, req.widgetId = w.id :=
  reachable_load_pending h w hw hload

/-- C2 witness: at the reachable overlap state, the fetch for `w1` is
indeed still in flight. -/
theorem loading_error_overlap_witness :
    ∃ req ∈ stepState3.pending, req.widgetId = violWidget.id :=
  loading_error_overlap_only_while_fetching stepState3 reachable_stepState3
    violWidget (by decide) (by decide) (by decide)

end WidgetDragger
